import Mathlib

/-!
Verification of the Oasis `problems` configuration layer.

The repository is a thin Python configuration module on top of the dolfin
finite-element framework: a global parameter dictionary (`NS_parameters`),
a deep-merge helper (`recursive_update`), a set of hook functions with
default no-op behaviour, rank-gated logging helpers, a memory-usage probe,
and one concrete problem definition (`Lshape.py`).

We give a shallow embedding: Python values are modelled by the inductive
type `PyVal` (dictionaries as ordered association lists over string keys,
matching Python insertion-order semantics), Python floats by exact
rationals, dolfin objects by small symbolic stand-ins carrying exactly the
data the code reads from them (a mesh carries its geometric dimension).
Side effects (printing, plotting) are modelled as returned values, and
Python exceptions as `Except`.
-/

set_option maxHeartbeats 1000000
set_option linter.unusedVariables false

/-- Model of a Python value as used by the `problems` module: `none` is
Python `None`, `float` carries an exact rational (the module only ever
compares and stores float parameters, never rounds), `const` is a dolfin
`Constant` built from a tuple of numbers, `meshObj d` is a dolfin mesh
whose geometry has dimension `d`, and `dict` is an insertion-ordered
Python dictionary with string keys. -/
inductive PyVal where
  | none : PyVal
  | bool : Bool → PyVal
  | int : Int → PyVal
  | float : ℚ → PyVal
  | str : String → PyVal
  | const : List Int → PyVal
  | meshObj : Nat → PyVal
  | list : List PyVal → PyVal
  | dict : List (String × PyVal) → PyVal

/-- Python `d[k]` read on an insertion-ordered dict: the value of the first
(and in a well-formed dict, only) entry with key `k`. -/
def lookupKey {α : Type} : List (String × α) → String → Option α
  | [], _ => Option.none
  | (k', v) :: rest, k => if k' = k then some v else lookupKey rest k

/-- Python `d[k] = v` assignment semantics on an insertion-ordered dict:
replace the value in place if the key is present, otherwise append the new
entry at the end. -/
def setKey {α : Type} : List (String × α) → String → α → List (String × α)
  | [], k, v => [(k, v)]
  | (k', v') :: rest, k, v =>
      if k' = k then (k, v) :: rest else (k', v') :: setKey rest k v

/-- Python `dict(pairs)` construction: assign each pair in order into an
initially empty dict (later duplicates overwrite earlier ones). -/
def pyDict {α : Type} (ps : List (String × α)) : List (String × α) :=
  ps.foldl (fun d p => setKey d p.1 p.2) []

/-- Python `dst.update(src)`: shallow update, every entry of `src` is
assigned into `dst` in order. -/
def dictUpdate {α : Type} (dst src : List (String × α)) : List (String × α) :=
  src.foldl (fun d p => setKey d p.1 p.2) dst

/-- Embedding of `recursive_update(dst, src)` from `problems/__init__.py`:
for every key/value pair of `src` in order, if the key is present in `dst`
and both the source value and the destination value are dicts, the two are
merged recursively; otherwise the source value is assigned over the
destination entry. The updated dict is returned. -/
def recursive_update : List (String × PyVal) → List (String × PyVal) → List (String × PyVal)
  | dst, [] => dst
  | dst, (key, .dict s) :: rest =>
      match lookupKey dst key with
      | some (.dict d) => recursive_update (setKey dst key (.dict (recursive_update d s))) rest
      | _ => recursive_update (setKey dst key (.dict s)) rest
  | dst, (key, val) :: rest => recursive_update (setKey dst key val) rest
  termination_by _ src => sizeOf src
  decreasing_by all_goals simp_wf
                all_goals omega

/-- Embedding of the `krylov_solvers` nested default dict of
`NS_parameters` (`problems/__init__.py`): seven solver fields. -/
def krylov_solvers : List (String × PyVal) :=
  pyDict
    [("monitor_convergence", .bool false),
     ("report", .bool false),
     ("error_on_nonconvergence", .bool false),
     ("nonzero_initial_guess", .bool true),
     ("maximum_iterations", .int 200),
     ("relative_tolerance", .float (1 / 100000000)),
     ("absolute_tolerance", .float (1 / 100000000))]

/-- Embedding of the global default parameter dict `NS_parameters` from
`problems/__init__.py` (floats as exact rationals). -/
def NS_parameters : List (String × PyVal) :=
  pyDict
    [("nu", .float (1 / 100)),
     ("t", .float 0),
     ("tstep", .int 0),
     ("T", .float 1),
     ("dt", .float (1 / 100)),
     ("AB_projection_pressure", .bool false),
     ("velocity_degree", .int 2),
     ("pressure_degree", .int 1),
     ("solver", .str "IPCS_ABCN"),
     ("max_iter", .int 1),
     ("max_error", .float (1 / 1000000)),
     ("iters_on_first_timestep", .int 2),
     ("use_krylov_solvers", .bool false),
     ("low_memory_version", .bool false),
     ("print_intermediate_info", .int 10),
     ("print_velocity_pressure_convergence", .bool false),
     ("velocity_update_type", .str "default"),
     ("plot_interval", .int 10),
     ("checkpoint", .int 10),
     ("save_step", .int 10),
     ("folder", .str "results"),
     ("restart_folder", .none),
     ("output_timeseries_as_vector", .bool true),
     ("krylov_solvers", .dict krylov_solvers)]

/-- Embedding of the problem-specific override dict that `Lshape.py`
passes to `NS_parameters.update(...)`; every value is scalar (no nested
dict), with `Re = 200.` and `nu = 1./Re`. -/
def Lshape_parameter_overrides : List (String × PyVal) :=
  pyDict
    [("nu", .float (1 / 200)),
     ("T", .int 10),
     ("dt", .float (1 / 100)),
     ("Re", .float 200),
     ("Nx", .int 40),
     ("Ny", .int 40),
     ("folder", .str "Lshape_results"),
     ("max_iter", .int 1),
     ("plot_interval", .int 1),
     ("velocity_degree", .int 2),
     ("velocity_update_type", .str "lumping"),
     ("use_krylov_solvers", .bool true)]

/-- State of `NS_parameters` after `Lshape.py` runs
`NS_parameters.update(dict(...))`: a shallow `dict.update`, modelled by
`dictUpdate`. -/
def Lshape_NS_parameters : List (String × PyVal) :=
  dictUpdate NS_parameters Lshape_parameter_overrides

/-- Test whether a `PyVal` is a Python dict (`isinstance(v, dict)`). -/
def PyVal.isDict : PyVal → Bool
  | .dict _ => true
  | _ => false

/-- Extract the underlying strings of a Python list of strings; `none`
when some element is not a string. -/
def getStrings : List PyVal → Option (List String)
  | [] => some []
  | .str s :: rest => (getStrings rest).map (s :: ·)
  | _ :: _ => Option.none

/-!
Hook functions. Each Python hook `f(a, b, **NS_namespace)` is called by
the external driver as `f(**vars())`, so it is modelled as a function of
the whole namespace dict that binds its named parameters by key lookup
(a missing or ill-typed required key is the Python `TypeError` of a failed
call) and ignores every other entry, exactly as `**NS_namespace` does.
Return value `None` is `Option.none`; raised exceptions are `.error`.
-/

/-- Embedding of `initialize(**NS_namespace)` (as `initialize_hook`): body is `pass`, so every
call returns `None` and touches nothing. -/
def initialize_hook (ns : List (String × PyVal)) : Except String (Option PyVal) :=
  .ok Option.none

/-- Embedding of `velocity_tentative_hook(**NS_namespace)`: `pass`. -/
def velocity_tentative_hook (ns : List (String × PyVal)) : Except String (Option PyVal) :=
  .ok Option.none

/-- Embedding of `pressure_hook(**NS_namespace)`: `pass`. -/
def pressure_hook (ns : List (String × PyVal)) : Except String (Option PyVal) :=
  .ok Option.none

/-- Embedding of `scalar_hook(**NS_namespace)`: `pass`. -/
def scalar_hook (ns : List (String × PyVal)) : Except String (Option PyVal) :=
  .ok Option.none

/-- Embedding of the default `start_timestep_hook(**NS_namespace)`: `pass`. -/
def start_timestep_hook (ns : List (String × PyVal)) : Except String (Option PyVal) :=
  .ok Option.none

/-- Embedding of the default `temporal_hook(**NS_namespace)`: `pass`. -/
def temporal_hook (ns : List (String × PyVal)) : Except String (Option PyVal) :=
  .ok Option.none

/-- Embedding of `theend_hook(**NS_namespace)`: `pass`. -/
def theend_hook (ns : List (String × PyVal)) : Except String (Option PyVal) :=
  .ok Option.none

/-- Embedding of the default `pre_solve_hook(**NS_namespace)`: returns the
empty dict `{}`. -/
def pre_solve_hook (ns : List (String × PyVal)) : Except String (Option PyVal) :=
  .ok (some (.dict []))

/-- Embedding of `body_force(mesh, **NS_namespace)`: returns
`Constant((0,)*mesh.geometry().dim())`, a zero constant tuple sized by the
mesh's geometric dimension. A context without a usable `mesh` raises. -/
def body_force (ns : List (String × PyVal)) : Except String (Option PyVal) :=
  match lookupKey ns "mesh" with
  | some (.meshObj d) => .ok (some (.const (List.replicate d 0)))
  | some _ => .error "AttributeError"
  | Option.none => .error "TypeError"

/-- Embedding of `scalar_source(scalar_components, **NS_namespace)`:
returns `dict((ci, Constant(0)) for ci in scalar_components)`. -/
def scalar_source (ns : List (String × PyVal)) : Except String (Option PyVal) :=
  match lookupKey ns "scalar_components" with
  | some (.list cs) =>
      match getStrings cs with
      | some names =>
          .ok (some (.dict (pyDict (names.map fun ci => (ci, PyVal.const [0])))))
      | Option.none => .error "TypeError"
  | some _ => .error "TypeError"
  | Option.none => .error "TypeError"

/-- Core of the default `create_bcs(sys_comp, **NS_namespace)`: the dict
`dict((ui, []) for ui in sys_comp)` mapping each unknown name to an empty
constraint list. -/
def create_bcs (sys_comp : List String) : List (String × PyVal) :=
  pyDict (sys_comp.map fun ui => (ui, PyVal.list []))

/-- Kwargs-binding wrapper of the default `create_bcs`. -/
def create_bcs_hook (ns : List (String × PyVal)) : Except String (Option PyVal) :=
  match lookupKey ns "sys_comp" with
  | some (.list cs) =>
      match getStrings cs with
      | some names => .ok (some (.dict (create_bcs names)))
      | Option.none => .error "TypeError"
  | some _ => .error "TypeError"
  | Option.none => .error "TypeError"

/-!
Rank-gated logging helpers from `problems/__init__.py`. Printing is
modelled as the list of lines the call emits on the calling process, with
the process's MPI rank passed explicitly.
-/

/-- Python percent-formatting of a status string into an ANSI colour
escape wrapper. -/
def colorWrap (pre s : String) : String := pre ++ s ++ "\x1b[0m"

/-- The `BLUE` format string applied to `s`. -/
def BLUE (s : String) : String := colorWrap "\x1b[1;37;34m" s

/-- The `GREEN` format string applied to `s`. -/
def GREEN (s : String) : String := colorWrap "\x1b[1;37;32m" s

/-- The `RED` format string applied to `s`. -/
def RED (s : String) : String := colorWrap "\x1b[1;37;31m" s

/-- Embedding of `info_blue(s, check=True)`: prints `BLUE % s` exactly
when the caller's MPI rank is 0 and `check` holds. -/
def info_blue (rank : ℕ) (s : String) (check : Bool) : List String :=
  if rank = 0 ∧ check = true then [BLUE s] else []

/-- Embedding of `info_green(s, check=True)`. -/
def info_green (rank : ℕ) (s : String) (check : Bool) : List String :=
  if rank = 0 ∧ check = true then [GREEN s] else []

/-- Embedding of `info_red(s, check=True)`. -/
def info_red (rank : ℕ) (s : String) (check : Bool) : List String :=
  if rank = 0 ∧ check = true then [RED s] else []

/-!
Memory probing. The fallback `getMemoryUsage` shells out to
`ps -o rss <pid>` (or `ps -o vsz <pid>`); the operating system is modelled
as a map from command strings to their captured output. Python's
`eval(token)` on the second whitespace token is modelled as parsing a
decimal natural number — `ps` prints the field as non-negative decimal
text — with any other token raising. `OasisMemoryUsage.__call__` sums the
per-rank probe values with `MPI.sum`, modelled as summing an explicit list
of per-rank readings.
-/

/-- The command string `"ps -o rss %s" % pid` (or `vsz` when `rss` is
false) built by the fallback `getMemoryUsage`. -/
def psCommand (rss : Bool) (pid : ℕ) : String :=
  (if rss then "ps -o rss " else "ps -o vsz ") ++ toString pid

/-- Tokenizer behind `splitTokens`: walk the characters, accumulating the
current (reversed) token and emitting it at each whitespace boundary. -/
def tokenizeAux : List Char → List Char → List String
  | [], acc => if acc.isEmpty then [] else [String.mk acc.reverse]
  | c :: cs, acc =>
      if c.isWhitespace then
        if acc.isEmpty then tokenizeAux cs []
        else String.mk acc.reverse :: tokenizeAux cs []
      else tokenizeAux cs (c :: acc)

/-- Python `str.split()` with no argument: split on runs of whitespace,
dropping empty fields. -/
def splitTokens (s : String) : List String :=
  tokenizeAux s.data []

/-- Python `eval(token)` as the fallback probe uses it: the `ps` field is
a non-negative decimal numeral, so a token of decimal digits evaluates to
its value, and any other token raises. -/
def evalNatToken (s : String) : Option ℕ :=
  if s.data ≠ [] ∧ s.data.all Char.isDigit then
    some (s.data.foldl (fun n c => 10 * n + (c.toNat - 48)) 0)
  else Option.none

/-- Embedding of the fallback `getMemoryUsage(rss=True)` defined when
`fenicstools` is unavailable: run the process-status command for this
process id, split its output, take token index 1 and evaluate it. A
missing token raises (`IndexError`), a non-numeric token raises. -/
def getMemoryUsage (rss : Bool) (env : String → String) (pid : ℕ) : Except String Int :=
  match (splitTokens (env (psCommand rss pid)))[1]? with
  | some tok =>
      match evalNatToken tok with
      | some n => .ok (n : Int)
      | Option.none => .error "ValueError"
  | Option.none => .error "IndexError"

/-- State of an `OasisMemoryUsage` instance: current and previous summed
resident and virtual memory readings. -/
structure OasisMemoryUsage where
  memory : Int
  memory_vm : Int
  prev : Int
  prev_vm : Int

/-- Embedding of `OasisMemoryUsage.__call__(s)`: save the current
readings into `prev`/`prev_vm`, then store the MPI-wide sums of the new
per-rank probes. -/
def omuCall (st : OasisMemoryUsage) (probes probes_vm : List Int) : OasisMemoryUsage :=
  { prev := st.memory, prev_vm := st.memory_vm,
    memory := probes.sum, memory_vm := probes_vm.sum }

/-- The four numbers `__call__` prints on rank 0 when verbose: delta and
cumulative resident memory, delta and cumulative virtual memory. -/
def omuReport (st : OasisMemoryUsage) : Int × Int × Int × Int :=
  (st.memory - st.prev, st.memory, st.memory_vm - st.prev_vm, st.memory_vm)

/-- Embedding of `OasisMemoryUsage.__init__(s)`: zero both counters, then
probe once via `__call__`. -/
def omuInit (probes probes_vm : List Int) : OasisMemoryUsage :=
  omuCall { memory := 0, memory_vm := 0, prev := 0, prev_vm := 0 } probes probes_vm

/-!
The L-shaped problem (`problems/Lshape.py`). Geometry is modelled over
exact rationals: `DOLFIN_EPS` is the double-precision constant `3.0e-16`
as a rational, a mesh is its list of triangular cells and a cell its list
of vertex coordinates. `UnitSquareMesh(Nx, Ny)` triangulates the unit
square into `Nx * Ny` grid squares each split along its up-right diagonal.
`SubDomain.mark(mf, 1)` writes marker 1 on the cells all of whose vertices
satisfy the `inside` predicate (dolfin evaluates `inside` on each vertex),
and `SubMesh(mesh_, mf1, 0)` keeps the cells whose marker is 0.
-/

/-- The dolfin machine-epsilon constant `DOLFIN_EPS = 3.0e-16`. -/
def dolfinEps : ℚ := 3 / 10 ^ 16

/-- Embedding of `Submesh.inside` from `Lshape.py`:
`x[0] > 0.25 - DOLFIN_EPS and x[1] > 0.25 - DOLFIN_EPS` (the
`on_boundary` argument is unused by the source). -/
def Submesh_inside (x : ℚ × ℚ) (on_boundary : Bool) : Bool :=
  decide (x.1 > 1 / 4 - dolfinEps) && decide (x.2 > 1 / 4 - dolfinEps)

/-- Vertex `(i / Nx, j / Ny)` of the structured unit-square grid. -/
def gridPoint (Nx Ny i j : ℕ) : ℚ × ℚ :=
  ((i : ℚ) / (Nx : ℚ), (j : ℚ) / (Ny : ℚ))

/-- The two triangles of grid square `(i, j)`. -/
def squareCells (Nx Ny i j : ℕ) : List (List (ℚ × ℚ)) :=
  [[gridPoint Nx Ny i j, gridPoint Nx Ny (i + 1) j, gridPoint Nx Ny (i + 1) (j + 1)],
   [gridPoint Nx Ny i j, gridPoint Nx Ny i (j + 1), gridPoint Nx Ny (i + 1) (j + 1)]]

/-- Model of dolfin `UnitSquareMesh(Nx, Ny)` as its list of cells. -/
def UnitSquareMesh (Nx Ny : ℕ) : List (List (ℚ × ℚ)) :=
  (List.range Nx).flatMap fun i => (List.range Ny).flatMap fun j => squareCells Nx Ny i j

/-- Marker a cell receives after `mf1.set_all(0); subm.mark(mf1, 1)`:
1 when every vertex satisfies `Submesh.inside`, else the initial 0. -/
def cellMarker (c : List (ℚ × ℚ)) : ℕ :=
  if c.all (fun v => Submesh_inside v false) then 1 else 0

/-- Embedding of `mesh(Nx, Ny, **params)` from `Lshape.py`: mark the
cells inside the sub-square and return `SubMesh(mesh_, mf1, 0)`, the
cells left with marker 0. -/
def mesh (Nx Ny : ℕ) : List (List (ℚ × ℚ)) :=
  (UnitSquareMesh Nx Ny).filter fun c => cellMarker c == 0

/-- Kwargs-binding wrapper of the `mesh` hook (`mesh(Nx, Ny, **params)`). -/
def mesh_hook (ns : List (String × PyVal)) : Except String (List (List (ℚ × ℚ))) :=
  match lookupKey ns "Nx", lookupKey ns "Ny" with
  | some (.int nx), some (.int ny) => .ok (mesh nx.toNat ny.toNat)
  | _, _ => .error "TypeError"

/-- Embedding of dolfin `near(a, b)`: `|a - b| <= DOLFIN_EPS`. -/
def near (a b : ℚ) : Bool := decide (|a - b| ≤ dolfinEps)

/-- Embedding of `inlet` from `Lshape.py`: `near(x[1] - 1., 0.) and
on_boundary`. -/
def inlet (x : ℚ × ℚ) (on_boundary : Bool) : Bool :=
  near (x.2 - 1) 0 && on_boundary

/-- Embedding of `outlet` from `Lshape.py`: `near(x[0] - 1., 0.) and
on_boundary`. -/
def outlet (x : ℚ × ℚ) (on_boundary : Bool) : Bool :=
  near (x.1 - 1) 0 && on_boundary

/-- Embedding of `walls` from `Lshape.py`, keeping Python's operator
precedence: `A or B or (C and D and on_boundary)` where `A`/`B` test
nearness to the two axes and `C`/`D` test both coordinates against
`0.25 - 5 * DOLFIN_EPS`. -/
def walls (x : ℚ × ℚ) (on_boundary : Bool) : Bool :=
  near x.1 0 || near x.2 0 ||
    (decide (x.1 > 1 / 4 - 5 * dolfinEps) && decide (x.2 > 1 / 4 - 5 * dolfinEps)
      && on_boundary)

/-- Embedding of `create_bcs(V, Q, sys_comp, **NS_namespace)` from
`Lshape.py`: start from an empty list per unknown, then install the wall
velocity constraint on `u0` and `u1` and the inlet/outlet pressure
constraints on `p`. A Dirichlet constraint is modelled symbolically as
the list of its constructor arguments. -/
def Lshape_create_bcs (ns : List (String × PyVal)) : Except String (Option PyVal) :=
  match lookupKey ns "V", lookupKey ns "Q", lookupKey ns "sys_comp" with
  | some V, some Q, some (.list cs) =>
      match getStrings cs with
      | some names =>
          let bcs := pyDict (names.map fun ui => (ui, PyVal.list []))
          let bc0 := PyVal.list [V, .float 0, .str "walls"]
          let pc0 := PyVal.list [Q, .str "p_in", .str "inlet"]
          let pc1 := PyVal.list [Q, .float 0, .str "outlet"]
          let bcs := setKey bcs "u0" (.list [bc0])
          let bcs := setKey bcs "u1" (.list [bc0])
          let bcs := setKey bcs "p" (.list [pc0, pc1])
          .ok (some (.dict bcs))
      | Option.none => .error "TypeError"
  | _, _, _ => .error "TypeError"

/-- Embedding of `pre_solve_hook(mesh, **NS_namespace)` from `Lshape.py`:
returns `dict(Vv=VectorFunctionSpace(mesh, 'CG', 1), uv=Function(Vv))`. -/
def Lshape_pre_solve_hook (ns : List (String × PyVal)) : Except String (Option PyVal) :=
  match lookupKey ns "mesh" with
  | some m =>
      .ok (some (.dict [("Vv", .list [m, .str "CG", .int 1]), ("uv", .str "Function(Vv)")]))
  | Option.none => .error "TypeError"

/-- Embedding of `start_timestep_hook(t, **NS_namespace)` from
`Lshape.py`: assigns `p_in.t = t` and returns `None`; modelled as
returning the value written to `p_in.t`. -/
def Lshape_start_timestep_hook (ns : List (String × PyVal)) : Except String PyVal :=
  match lookupKey ns "t" with
  | some t => .ok t
  | Option.none => .error "TypeError"

/-- Embedding of `temporal_hook(tstep, q_, u_, uv, Vv, plot_interval,
**NS_namespace)` from `Lshape.py`: every `plot_interval` steps, plot the
pressure `q_['p']` and the velocity projected into `Vv`; modelled as the
list of plotted objects. -/
def Lshape_temporal_hook (ns : List (String × PyVal)) : Except String (List PyVal) :=
  match lookupKey ns "tstep", lookupKey ns "q_", lookupKey ns "u_",
        lookupKey ns "uv", lookupKey ns "Vv", lookupKey ns "plot_interval" with
  | some (.int tstep), some q, some u, some uv, some Vv, some (.int pinterval) =>
      if pinterval = 0 then .error "ZeroDivisionError"
      else if tstep % pinterval = 0 then
        match q with
        | .dict qd =>
            match lookupKey qd "p" with
            | some qp => .ok [qp, .list [u, Vv]]
            | Option.none => .error "KeyError"
        | _ => .error "TypeError"
      else .ok []
  | _, _, _, _, _, _ => .error "TypeError"




/-!
Lemmas about the dict primitives.
-/

theorem lookupKey_setKey_self {α : Type} (d : List (String × α)) (k : String) (v : α) :
    lookupKey (setKey d k v) k = some v := by
  induction d with
  | nil => simp [setKey, lookupKey]
  | cons p rest ih =>
      obtain ⟨k', v'⟩ := p
      by_cases h : k' = k <;> simp [setKey, lookupKey, h, ih]

theorem lookupKey_setKey_ne {α : Type} (d : List (String × α)) (k k' : String) (v : α)
    (h : k' ≠ k) : lookupKey (setKey d k' v) k = lookupKey d k := by
  induction d with
  | nil => simp [setKey, lookupKey, h]
  | cons p rest ih =>
      obtain ⟨k₀, v₀⟩ := p
      by_cases h0 : k₀ = k'
      · subst h0
        simp [setKey, lookupKey, h]
      · simp [setKey, lookupKey, h0, ih]

theorem lookupKey_append {α : Type} (ns extra : List (String × α)) (k : String)
    (h : ∀ p ∈ extra, p.1 ≠ k) : lookupKey (ns ++ extra) k = lookupKey ns k := by
  induction ns with
  | nil =>
      simp only [List.nil_append, lookupKey]
      induction extra with
      | nil => simp [lookupKey]
      | cons p rest ih =>
          obtain ⟨k', v⟩ := p
          have hk' : k' ≠ k := h (k', v) (by simp)
          simp [lookupKey, hk', ih (fun q hq => h q (by simp [hq]))]
  | cons p rest ih =>
      obtain ⟨k', v⟩ := p
      by_cases hk' : k' = k <;> simp [lookupKey, hk', ih]

/-- Unfolding lemma for `recursive_update` on a cons source, phrased with
the same case distinction as the Python body. -/
theorem recursive_update_cons (dst : List (String × PyVal)) (key : String) (val : PyVal)
    (rest : List (String × PyVal)) :
    recursive_update dst ((key, val) :: rest) =
      recursive_update
        (match lookupKey dst key, val with
         | some (.dict d), .dict s => setKey dst key (.dict (recursive_update d s))
         | _, _ => setKey dst key val) rest := by
  cases val <;>
    (rcases h : lookupKey dst key with _ | w <;> [skip; (cases w)]) <;>
      simp [recursive_update, h]

theorem recursive_update_lookup_notin (dst src : List (String × PyVal)) (k : String)
    (h : k ∉ src.map Prod.fst) :
    lookupKey (recursive_update dst src) k = lookupKey dst k := by
  induction src generalizing dst with
  | nil => simp [recursive_update]
  | cons p rest ih =>
      obtain ⟨key, val⟩ := p
      simp only [List.map_cons, List.mem_cons, not_or] at h
      obtain ⟨hkey, hrest⟩ := h
      rw [recursive_update_cons]
      rcases hdst : lookupKey dst key with _ | w <;> [skip; (cases w)] <;>
        cases val <;>
          simp [hdst, ih _ hrest, lookupKey_setKey_ne _ _ _ _ (Ne.symm hkey)]

/-- The value a merged dict binds a source key to: the recursive merge
when both old and new values are dicts, the source value otherwise. -/
def mergedValue (dstv : Option PyVal) (v : PyVal) : Option PyVal :=
  match dstv, v with
  | some (.dict d), .dict s => some (.dict (recursive_update d s))
  | _, _ => some v

/-- Characterisation of one merged entry: for a key bound in the source
dict (whose keys, as a Python dict, are distinct), the merged dict binds
it to the recursive merge when both corresponding values are dicts, and to
the source value otherwise. -/
theorem recursive_update_lookup (dst src : List (String × PyVal)) (k : String) (v : PyVal)
    (hnd : (src.map Prod.fst).Nodup) (hk : lookupKey src k = some v) :
    lookupKey (recursive_update dst src) k = mergedValue (lookupKey dst k) v := by
  induction src generalizing dst with
  | nil => simp [lookupKey] at hk
  | cons p rest ih =>
      obtain ⟨key, val⟩ := p
      simp only [List.map_cons, List.nodup_cons] at hnd
      obtain ⟨hkey_notin, hnd'⟩ := hnd
      rw [recursive_update_cons]
      by_cases hkk : key = k
      · subst hkk
        simp [lookupKey] at hk
        subst hk
        rw [recursive_update_lookup_notin _ _ _ hkey_notin]
        rcases hdst : lookupKey dst key with _ | w <;> [skip; (cases w)] <;>
          cases val <;> simp [hdst, mergedValue, lookupKey_setKey_self]
      · simp only [lookupKey, if_neg hkk] at hk
        rcases hdst : lookupKey dst key with _ | w <;> [skip; (cases w)] <;>
          cases val <;>
            simp only [hdst, ih _ hnd' hk, lookupKey_setKey_ne _ _ _ _ hkk]

/-- C1: `recursive_update(dst, src)` deep-merges: for every key bound in
the source dict, if the key exists in the destination and both the source
value and the destination value are dicts, the two are merged recursively;
otherwise the source value replaces the destination value. In particular,
merging a dict binding `a` to the single-entry dict `x: 1` into a
destination binding `a` to `x: 0, y: 2` yields `a` bound to `x: 1, y: 2`,
so sibling keys under a partially overridden nested dict keep their
default values. -/
theorem recursive_update_deep_merge (dst src : List (String × PyVal)) (k : String)
    (v : PyVal) (hnd : (src.map Prod.fst).Nodup) (hk : lookupKey src k = some v) :
    (∀ d s, lookupKey dst k = some (.dict d) → v = .dict s →
        lookupKey (recursive_update dst src) k = some (.dict (recursive_update d s)))
    ∧ ((∀ d s, ¬(lookupKey dst k = some (.dict d) ∧ v = .dict s)) →
        lookupKey (recursive_update dst src) k = some v)
    ∧ recursive_update [("a", .dict [("x", .int 0), ("y", .int 2)])]
          [("a", .dict [("x", .int 1)])]
        = [("a", .dict [("x", .int 1), ("y", .int 2)])] := by
  refine ⟨?_, ?_, ?_⟩
  · intro d s hd hv
    rw [recursive_update_lookup dst src k v hnd hk, hd, hv]
    simp [mergedValue]
  · intro h
    rw [recursive_update_lookup dst src k v hnd hk]
    rcases hdst : lookupKey dst k with _ | w
    · cases v <;> simp [mergedValue]
    · cases w <;> cases v <;>
        first
          | exact absurd ⟨hdst, rfl⟩ (h _ _)
          | simp [mergedValue]
  · simp [recursive_update, lookupKey, setKey]

/-- Witness for C1 at the spec's concrete example. -/
theorem recursive_update_deep_merge_witness :
    lookupKey
        (recursive_update [("a", .dict [("x", .int 0), ("y", .int 2)])]
          [("a", .dict [("x", .int 1)])]) "a"
      = some (.dict (recursive_update [("x", .int 0), ("y", .int 2)] [("x", .int 1)])) :=
  (recursive_update_deep_merge
      [("a", .dict [("x", .int 0), ("y", .int 2)])] [("a", .dict [("x", .int 1)])]
      "a" (.dict [("x", .int 1)]) (by simp) (by simp [lookupKey])).1
    [("x", .int 0), ("y", .int 2)] [("x", .int 1)] (by simp [lookupKey]) rfl

theorem lookupKey_foldl_setKey_const {α : Type} (v : α) :
    ∀ (ps acc : List (String × α)) (k : String),
      (∀ p ∈ ps, p.2 = v) →
      lookupKey (ps.foldl (fun d p => setKey d p.1 p.2) acc) k
        = if k ∈ ps.map Prod.fst then some v else lookupKey acc k := by
  intro ps
  induction ps with
  | nil => intro acc k h; simp
  | cons p rest ih =>
      intro acc k h
      obtain ⟨k₁, v₁⟩ := p
      have hv₁ : v₁ = v := h (k₁, v₁) (by simp)
      subst hv₁
      simp only [List.foldl_cons]
      rw [ih _ k (fun q hq => h q (by simp [hq]))]
      by_cases hmem : k ∈ rest.map Prod.fst
      · simp [hmem]
      · by_cases hk : k₁ = k
        · subst hk
          simp [hmem, lookupKey_setKey_self]
        · simp [hmem, Ne.symm hk, lookupKey_setKey_ne _ _ _ _ hk]

theorem setKey_keys_toFinset {α : Type} (d : List (String × α)) (k : String) (v : α) :
    ((setKey d k v).map Prod.fst).toFinset = insert k (d.map Prod.fst).toFinset := by
  induction d with
  | nil => simp [setKey]
  | cons p rest ih =>
      obtain ⟨k₀, v₀⟩ := p
      by_cases h : k₀ = k
      · subst h
        simp [setKey]
      · simp only [setKey, if_neg h, List.map_cons, List.toFinset_cons, ih]
        exact Finset.Insert.comm _ _ _

theorem foldl_setKey_keys {α : Type} :
    ∀ (ps acc : List (String × α)),
      ((ps.foldl (fun d p => setKey d p.1 p.2) acc).map Prod.fst).toFinset
        = (acc.map Prod.fst).toFinset ∪ (ps.map Prod.fst).toFinset := by
  intro ps
  induction ps with
  | nil => intro acc; simp
  | cons p rest ih =>
      intro acc
      simp only [List.foldl_cons, ih, setKey_keys_toFinset, List.map_cons,
        List.toFinset_cons]
      rw [Finset.insert_union, Finset.union_insert]

/-- C2: the default `create_bcs`, for every input list of unknown-field
names, returns a dict whose key set is exactly the set of input names and
which binds every unknown name to the empty list (no constraints). -/
theorem create_bcs_default (sys_comp : List String) :
    ((create_bcs sys_comp).map Prod.fst).toFinset = sys_comp.toFinset
    ∧ ∀ ui ∈ sys_comp, lookupKey (create_bcs sys_comp) ui = some (.list []) := by
  constructor
  · unfold create_bcs pyDict
    rw [foldl_setKey_keys]
    simp [Function.comp_def]
  · intro ui hui
    unfold create_bcs pyDict
    rw [lookupKey_foldl_setKey_const (PyVal.list []) _ _ _ (by simp)]
    simp [hui]

/-- Witness for C2 at the standard unknown set of a two-dimensional
velocity-pressure problem. -/
theorem create_bcs_default_witness :
    lookupKey (create_bcs ["u0", "u1", "p"]) "p" = some (.list []) :=
  (create_bcs_default ["u0", "u1", "p"]).2 "p" (by simp)

/-- C3 counterexample: on a well-formed context holding a two-dimensional
mesh, the default `body_force` returns a zero `Constant` tuple, which is
neither `None` nor an empty dict, so not every default hook is a no-op in
the claimed sense. -/
theorem default_hooks_noop_counterexample :
    ¬(body_force [("mesh", .meshObj 2)] = .ok Option.none
      ∨ body_force [("mesh", .meshObj 2)] = .ok (some (.dict []))) := by
  have h : body_force [("mesh", .meshObj 2)] = .ok (some (.const [0, 0])) := rfl
  rw [h]
  rintro (hc | hc) <;> simp at hc

/-- C3 (amended): each default hook with a `pass` body (initialize,
velocity_tentative_hook, pressure_hook, scalar_hook, start_timestep_hook,
temporal_hook, theend_hook) returns `None` on every context, and the
default `pre_solve_hook` returns the empty dict; all are pure functions of
the context, so none mutates caller-owned state. The remaining two
defaults are trivial but not no-ops: `body_force` returns a zero
`Constant` tuple sized by the mesh's geometric dimension, and
`scalar_source` returns a dict binding each scalar component to a zero
`Constant` — the empty dict exactly when `scalar_components` is the
default empty list. -/
theorem default_hooks_behaviour (ns : List (String × PyVal)) :
    initialize_hook ns = .ok Option.none
    ∧ velocity_tentative_hook ns = .ok Option.none
    ∧ pressure_hook ns = .ok Option.none
    ∧ scalar_hook ns = .ok Option.none
    ∧ start_timestep_hook ns = .ok Option.none
    ∧ temporal_hook ns = .ok Option.none
    ∧ theend_hook ns = .ok Option.none
    ∧ pre_solve_hook ns = .ok (some (.dict []))
    ∧ (∀ d, lookupKey ns "mesh" = some (.meshObj d) →
        body_force ns = .ok (some (.const (List.replicate d 0))))
    ∧ (∀ cs names, lookupKey ns "scalar_components" = some (.list cs) →
        getStrings cs = some names →
        scalar_source ns = .ok (some (.dict (pyDict
          (names.map fun ci => (ci, PyVal.const [0]))))))
    ∧ (lookupKey ns "scalar_components" = some (.list []) →
        scalar_source ns = .ok (some (.dict []))) := by
  refine ⟨rfl, rfl, rfl, rfl, rfl, rfl, rfl, rfl, ?_, ?_, ?_⟩
  · intro d hd
    simp [body_force, hd]
  · intro cs names hcs hnames
    simp [scalar_source, hcs, hnames]
  · intro h
    simp [scalar_source, h, getStrings, pyDict]

/-- Witness for C3 (amended) on a context with a 2-D mesh and the default
empty scalar-component list. -/
theorem default_hooks_behaviour_witness :
    initialize_hook [("mesh", .meshObj 2), ("scalar_components", .list [])]
      = .ok Option.none
    ∧ body_force [("mesh", .meshObj 2), ("scalar_components", .list [])]
      = .ok (some (.const [0, 0]))
    ∧ scalar_source [("mesh", .meshObj 2), ("scalar_components", .list [])]
      = .ok (some (.dict [])) := by
  obtain ⟨h1, -, -, -, -, -, -, -, hbf, -, hss⟩ :=
    default_hooks_behaviour [("mesh", .meshObj 2), ("scalar_components", .list [])]
  exact ⟨h1, by simpa using hbf 2 rfl, hss rfl⟩

/-- Every cell the L-shape `mesh` keeps has a vertex outside the open
sub-square, for any resolution: extraction of the marker-0 cells removes
exactly the cells all of whose vertices satisfy `Submesh.inside`. -/
theorem mesh_cells_not_inside (Nx Ny : ℕ) :
    ∀ c ∈ mesh Nx Ny, ∃ v ∈ c, v.1 ≤ 1 / 4 - dolfinEps ∨ v.2 ≤ 1 / 4 - dolfinEps := by
  intro c hc
  rw [mesh, List.mem_filter] at hc
  obtain ⟨-, hm⟩ := hc
  by_cases hall : c.all (fun v => Submesh_inside v false) = true
  · simp [cellMarker, hall] at hm
  · rw [List.all_eq_true] at hall
    push_neg at hall
    obtain ⟨v, hv, hvi⟩ := hall
    refine ⟨v, hv, ?_⟩
    have hvi' : ¬(1 / 4 - dolfinEps < v.1 ∧ 1 / 4 - dolfinEps < v.2) := by
      intro hcon
      exact hvi (by
        simp only [Submesh_inside, Bool.and_eq_true, decide_eq_true_eq]
        exact ⟨hcon.1, hcon.2⟩)
    rcases le_or_lt v.1 (1 / 4 - dolfinEps) with h1 | h1
    · exact Or.inl h1
    · rcases le_or_lt v.2 (1 / 4 - dolfinEps) with h2 | h2
      · exact Or.inr h2
      · exact absurd ⟨h1, h2⟩ hvi'

/-- C4: the L-shaped mesh generator at `Nx = Ny = 40`: the sub-domain
predicate holds exactly on points with both coordinates above
`0.25 - DOLFIN_EPS`, a cell is marked exactly when the predicate marks all
of its points, the returned mesh is the extraction of the cells left
unmarked (marker 0) from the unit-square mesh, and consequently every
cell of the result has a point outside the sub-square where both
coordinates exceed `0.25` (within the `DOLFIN_EPS` tolerance). -/
theorem Lshape_mesh_spec :
    (∀ (x : ℚ × ℚ) (onb : Bool), Submesh_inside x onb
        = (decide (x.1 > 1 / 4 - dolfinEps) && decide (x.2 > 1 / 4 - dolfinEps)))
    ∧ (∀ c, cellMarker c = 1 ↔ c.all (fun v => Submesh_inside v false) = true)
    ∧ mesh 40 40 = (UnitSquareMesh 40 40).filter (fun c => cellMarker c == 0)
    ∧ (mesh 40 40).all
        (fun c => c.any fun v =>
          decide (v.1 ≤ 1 / 4 - dolfinEps) || decide (v.2 ≤ 1 / 4 - dolfinEps)) = true := by
  refine ⟨fun x onb => rfl, ?_, rfl, ?_⟩
  · intro c
    by_cases h : c.all (fun v => Submesh_inside v false) = true <;> simp [cellMarker, h]
  · rw [List.all_eq_true]
    intro c hc
    obtain ⟨v, hv, hle⟩ := mesh_cells_not_inside 40 40 c hc
    rw [List.any_eq_true]
    exact ⟨v, hv, by simpa using hle⟩

theorem join_map_eq_nil {α β : Type} (l : List α) (f : α → List β)
    (h : ∀ x ∈ l, f x = []) : (l.map f).flatten = [] := by
  induction l with
  | nil => rfl
  | cons a t ih => simp [h a (by simp), ih (fun x hx => h x (by simp [hx]))]

/-- Total output of one logging call simulated across ranks `0, …, n-1`:
only rank 0 contributes. -/
theorem emit_total {f : ℕ → List String} (n : ℕ) (hn : 1 ≤ n)
    (h0 : ∀ r, r ≠ 0 → f r = []) :
    ((List.range n).map f).flatten.length = (f 0).length := by
  obtain ⟨m, rfl⟩ : ∃ m, n = m + 1 := ⟨n - 1, by omega⟩
  rw [List.range_succ_eq_map, List.map_cons, List.map_map, List.flatten_cons]
  rw [join_map_eq_nil (List.range m) (f ∘ Nat.succ) (fun x hx => h0 _ (Nat.succ_ne_zero x))]
  simp

/-- C5: `info_blue`, `info_green` and `info_red` print their status string
only on rank 0 and only when `check` holds, so simulating any process
count `n ≥ 1` emits exactly one line (when `check`) in total, independent
of `n`. -/
theorem info_rank_gated (s : String) (check : Bool) (n : ℕ) (hn : 1 ≤ n) :
    (∀ rank, rank ≠ 0 →
        info_blue rank s check = [] ∧ info_green rank s check = []
          ∧ info_red rank s check = [])
    ∧ info_blue 0 s check = (if check then [BLUE s] else [])
    ∧ info_green 0 s check = (if check then [GREEN s] else [])
    ∧ info_red 0 s check = (if check then [RED s] else [])
    ∧ ((List.range n).map (fun r => info_blue r s check)).flatten.length
        = (if check then 1 else 0)
    ∧ ((List.range n).map (fun r => info_green r s check)).flatten.length
        = (if check then 1 else 0)
    ∧ ((List.range n).map (fun r => info_red r s check)).flatten.length
        = (if check then 1 else 0) := by
  have hblue : ∀ r, r ≠ 0 → info_blue r s check = [] := by
    intro r hr; simp [info_blue, hr]
  have hgreen : ∀ r, r ≠ 0 → info_green r s check = [] := by
    intro r hr; simp [info_green, hr]
  have hred : ∀ r, r ≠ 0 → info_red r s check = [] := by
    intro r hr; simp [info_red, hr]
  refine ⟨fun r hr => ⟨hblue r hr, hgreen r hr, hred r hr⟩, ?_, ?_, ?_, ?_, ?_, ?_⟩
  · cases check <;> simp [info_blue]
  · cases check <;> simp [info_green]
  · cases check <;> simp [info_red]
  · rw [emit_total n hn hblue]
    cases check <;> simp [info_blue]
  · rw [emit_total n hn hgreen]
    cases check <;> simp [info_green]
  · rw [emit_total n hn hred]
    cases check <;> simp [info_red]

/-- Witness for C5 with 16 simulated processes. -/
theorem info_rank_gated_witness :
    ((List.range 16).map (fun r => info_blue r "Start" true)).flatten.length
      = (if true then 1 else 0) :=
  (info_rank_gated "Start" true 16 (by norm_num)).2.2.2.2.1

/-- C6: across two consecutive invocations of an `OasisMemoryUsage`
object, the cumulative values reported after the second probe are
non-negative (the per-rank operating-system readings are non-negative),
and the reported deltas equal the second probe's cumulative values minus
the first's (`self.memory - self.prev`, and likewise for virtual
memory). -/
theorem omu_two_probes (st : OasisMemoryUsage) (p1 v1 p2 v2 : List Int)
    (h2 : ∀ x ∈ p2, 0 ≤ x) (hv2 : ∀ x ∈ v2, 0 ≤ x) :
    0 ≤ (omuCall (omuCall st p1 v1) p2 v2).memory
    ∧ 0 ≤ (omuCall (omuCall st p1 v1) p2 v2).memory_vm
    ∧ (omuReport (omuCall (omuCall st p1 v1) p2 v2)).1
        = (omuCall (omuCall st p1 v1) p2 v2).memory - (omuCall st p1 v1).memory
    ∧ (omuReport (omuCall (omuCall st p1 v1) p2 v2)).2.2.1
        = (omuCall (omuCall st p1 v1) p2 v2).memory_vm - (omuCall st p1 v1).memory_vm :=
  ⟨List.sum_nonneg h2, List.sum_nonneg hv2, rfl, rfl⟩

/-- Witness for C6 on concrete probe readings. -/
theorem omu_two_probes_witness :
    0 ≤ (omuCall (omuCall (omuInit [120] [340]) [150] [360]) [140] [365]).memory
    ∧ (omuReport (omuCall (omuCall (omuInit [120] [340]) [150] [360]) [140] [365])).1
        = (omuCall (omuCall (omuInit [120] [340]) [150] [360]) [140] [365]).memory
          - (omuCall (omuInit [120] [340]) [150] [360]).memory := by
  obtain ⟨h1, -, h3, -⟩ :=
    omu_two_probes (omuInit [120] [340]) [150] [360] [140] [365] (by decide) (by decide)
  exact ⟨h1, h3⟩

/-- C7: when the fast accessor is unavailable, the fallback
`getMemoryUsage` queries resident memory through `ps -o rss` (virtual
memory through `ps -o vsz` when `rss` is false) and returns the parsed
numeric value of the second whitespace token of the command's output; a
missing second token or a non-numeric token makes it raise instead of
returning any default. -/
theorem getMemoryUsage_fallback (rss : Bool) (env : String → String) (pid : ℕ) :
    psCommand true pid = "ps -o rss " ++ toString pid
    ∧ psCommand false pid = "ps -o vsz " ++ toString pid
    ∧ (∀ tok n, (splitTokens (env (psCommand rss pid)))[1]? = some tok →
        evalNatToken tok = some n → getMemoryUsage rss env pid = .ok (n : Int))
    ∧ ((splitTokens (env (psCommand rss pid)))[1]? = Option.none →
        getMemoryUsage rss env pid = .error "IndexError")
    ∧ (∀ tok, (splitTokens (env (psCommand rss pid)))[1]? = some tok →
        evalNatToken tok = Option.none →
        getMemoryUsage rss env pid = .error "ValueError") := by
  refine ⟨rfl, rfl, ?_, ?_, ?_⟩
  · intro tok n h1 h2
    simp [getMemoryUsage, h1, h2]
  · intro h1
    simp [getMemoryUsage, h1]
  · intro tok h1 h2
    simp [getMemoryUsage, h1, h2]

/-- Witness for C7 on a well-formed and a malformed `ps` output. -/
theorem getMemoryUsage_fallback_witness :
    getMemoryUsage true (fun _ => "  RSS\n 4242\n") 99 = .ok 4242
    ∧ getMemoryUsage true (fun _ => "garbage output") 99 = .error "ValueError"
    ∧ getMemoryUsage true (fun _ => "RSS") 99 = .error "IndexError" := by
  refine ⟨?_, ?_, ?_⟩
  · exact (getMemoryUsage_fallback true (fun _ => "  RSS\n 4242\n") 99).2.2.1
      "4242" 4242 rfl rfl
  · exact (getMemoryUsage_fallback true (fun _ => "garbage output") 99).2.2.2.2
      "output" rfl rfl
  · exact (getMemoryUsage_fallback true (fun _ => "RSS") 99).2.2.2.1 rfl

/-- C8: every hook binds only its named context keys and silently ignores
all other entries: appending arbitrary extra entries whose keys are not
among the hook's named parameters never raises and never changes the
hook's result (the `pass`-bodied hooks ignore the whole context
outright). -/
theorem hooks_ignore_extra (ns extra : List (String × PyVal)) :
    initialize_hook (ns ++ extra) = initialize_hook ns
    ∧ velocity_tentative_hook (ns ++ extra) = velocity_tentative_hook ns
    ∧ pressure_hook (ns ++ extra) = pressure_hook ns
    ∧ scalar_hook (ns ++ extra) = scalar_hook ns
    ∧ start_timestep_hook (ns ++ extra) = start_timestep_hook ns
    ∧ temporal_hook (ns ++ extra) = temporal_hook ns
    ∧ theend_hook (ns ++ extra) = theend_hook ns
    ∧ pre_solve_hook (ns ++ extra) = pre_solve_hook ns
    ∧ ((∀ p ∈ extra, p.1 ≠ "mesh") → body_force (ns ++ extra) = body_force ns)
    ∧ ((∀ p ∈ extra, p.1 ≠ "scalar_components") →
        scalar_source (ns ++ extra) = scalar_source ns)
    ∧ ((∀ p ∈ extra, p.1 ≠ "sys_comp") →
        create_bcs_hook (ns ++ extra) = create_bcs_hook ns)
    ∧ ((∀ p ∈ extra, p.1 ≠ "Nx" ∧ p.1 ≠ "Ny") →
        mesh_hook (ns ++ extra) = mesh_hook ns)
    ∧ ((∀ p ∈ extra, p.1 ≠ "V" ∧ p.1 ≠ "Q" ∧ p.1 ≠ "sys_comp") →
        Lshape_create_bcs (ns ++ extra) = Lshape_create_bcs ns)
    ∧ ((∀ p ∈ extra, p.1 ≠ "mesh") →
        Lshape_pre_solve_hook (ns ++ extra) = Lshape_pre_solve_hook ns)
    ∧ ((∀ p ∈ extra, p.1 ≠ "t") →
        Lshape_start_timestep_hook (ns ++ extra) = Lshape_start_timestep_hook ns)
    ∧ ((∀ p ∈ extra, p.1 ≠ "tstep" ∧ p.1 ≠ "q_" ∧ p.1 ≠ "u_" ∧ p.1 ≠ "uv"
          ∧ p.1 ≠ "Vv" ∧ p.1 ≠ "plot_interval") →
        Lshape_temporal_hook (ns ++ extra) = Lshape_temporal_hook ns) := by
  refine ⟨rfl, rfl, rfl, rfl, rfl, rfl, rfl, rfl, ?_, ?_, ?_, ?_, ?_, ?_, ?_, ?_⟩
  · intro h
    simp only [body_force, lookupKey_append _ _ "mesh" h]
  · intro h
    simp only [scalar_source, lookupKey_append _ _ "scalar_components" h]
  · intro h
    simp only [create_bcs_hook, lookupKey_append _ _ "sys_comp" h]
  · intro h
    simp only [mesh_hook,
      lookupKey_append _ _ "Nx" (fun p hp => (h p hp).1),
      lookupKey_append _ _ "Ny" (fun p hp => (h p hp).2)]
  · intro h
    simp only [Lshape_create_bcs,
      lookupKey_append _ _ "V" (fun p hp => (h p hp).1),
      lookupKey_append _ _ "Q" (fun p hp => (h p hp).2.1),
      lookupKey_append _ _ "sys_comp" (fun p hp => (h p hp).2.2)]
  · intro h
    simp only [Lshape_pre_solve_hook, lookupKey_append _ _ "mesh" h]
  · intro h
    simp only [Lshape_start_timestep_hook, lookupKey_append _ _ "t" h]
  · intro h
    simp only [Lshape_temporal_hook,
      lookupKey_append _ _ "tstep" (fun p hp => (h p hp).1),
      lookupKey_append _ _ "q_" (fun p hp => (h p hp).2.1),
      lookupKey_append _ _ "u_" (fun p hp => (h p hp).2.2.1),
      lookupKey_append _ _ "uv" (fun p hp => (h p hp).2.2.2.1),
      lookupKey_append _ _ "Vv" (fun p hp => (h p hp).2.2.2.2.1),
      lookupKey_append _ _ "plot_interval" (fun p hp => (h p hp).2.2.2.2.2)]

/-- Witness for C8: a foreign entry in the context leaves `body_force`
and the L-shape `start_timestep_hook` unchanged. -/
theorem hooks_ignore_extra_witness :
    body_force ([("mesh", PyVal.meshObj 2)] ++ [("user_extra", PyVal.int 7)])
      = body_force [("mesh", PyVal.meshObj 2)]
    ∧ Lshape_start_timestep_hook
        ([("t", PyVal.float (1 / 2))] ++ [("user_extra", PyVal.int 7)])
      = Lshape_start_timestep_hook [("t", PyVal.float (1 / 2))] := by
  constructor
  · exact (hooks_ignore_extra [("mesh", .meshObj 2)]
        [("user_extra", .int 7)]).2.2.2.2.2.2.2.2.1
      (by intro p hp; rw [List.mem_singleton] at hp; subst hp; decide)
  · exact (hooks_ignore_extra [("t", .float (1 / 2))]
        [("user_extra", .int 7)]).2.2.2.2.2.2.2.2.2.2.2.2.2.2.1
      (by intro p hp; rw [List.mem_singleton] at hp; subst hp; decide)

/-- C9: in the L-shape `walls` predicate, Python's operator precedence
makes `on_boundary` restrict only the interior-corner disjunct: a point
near either axis is accepted for both values of `on_boundary`, while away
from the axes acceptance reduces to the corner test conjoined with
`on_boundary` (so it is never accepted with `on_boundary` false). -/
theorem walls_precedence (x : ℚ × ℚ) :
    ((near x.1 0 || near x.2 0) = true →
        walls x true = true ∧ walls x false = true)
    ∧ ((near x.1 0 || near x.2 0) = false →
        walls x true = (decide (x.1 > 1 / 4 - 5 * dolfinEps)
            && decide (x.2 > 1 / 4 - 5 * dolfinEps))
          ∧ walls x false = false) := by
  constructor
  · intro h
    rcases Bool.or_eq_true_iff.mp h with h1 | h1 <;>
      exact ⟨by simp [walls, h1], by simp [walls, h1]⟩
  · intro h
    obtain ⟨h1, h2⟩ := Bool.or_eq_false_iff.mp h
    exact ⟨by simp [walls, h1, h2], by simp [walls, h1, h2]⟩

/-- Witness for C9 at the interior-corner point `(1/2, 1/2)` (away from
both axes, both coordinates above the corner threshold). -/
theorem walls_precedence_witness :
    (near ((1 : ℚ) / 2) 0 || near ((1 : ℚ) / 2) 0) = false
    ∧ walls (((1 : ℚ) / 2), ((1 : ℚ) / 2)) true = true
    ∧ walls (((1 : ℚ) / 2), ((1 : ℚ) / 2)) false = false := by
  have hfalse : (near ((1 : ℚ) / 2) 0 || near ((1 : ℚ) / 2) 0) = false := by
    simp only [near, Bool.or_self, decide_eq_false_iff_not, not_le, sub_zero]
    rw [abs_of_pos (by norm_num)]
    norm_num [dolfinEps]
  have h := (walls_precedence (((1 : ℚ) / 2), ((1 : ℚ) / 2))).2 hfalse
  refine ⟨hfalse, ?_, h.2⟩
  rw [h.1]
  simp only [Bool.and_eq_true, decide_eq_true_eq]
  norm_num [dolfinEps]

/-- C10: the L-shape parameter overrides are all scalar-valued and applied
with Python's shallow `dict.update`, so afterwards the nested
`krylov_solvers` sub-dict of `NS_parameters` is unchanged and still equals
the global default with all seven of its fields at their default
values. -/
theorem Lshape_shallow_update_preserves_krylov :
    Lshape_parameter_overrides.all (fun p => ! p.2.isDict) = true
    ∧ lookupKey Lshape_NS_parameters "krylov_solvers"
        = lookupKey NS_parameters "krylov_solvers"
    ∧ lookupKey Lshape_NS_parameters "krylov_solvers" = some (.dict krylov_solvers)
    ∧ krylov_solvers
        = [("monitor_convergence", .bool false),
           ("report", .bool false),
           ("error_on_nonconvergence", .bool false),
           ("nonzero_initial_guess", .bool true),
           ("maximum_iterations", .int 200),
           ("relative_tolerance", .float (1 / 100000000)),
           ("absolute_tolerance", .float (1 / 100000000))] :=
  ⟨rfl, rfl, rfl, rfl⟩
